import Mathlib

/-!
Shallow embedding of the co-evolutionary population manager of the
Thesis_Repo repository (directory `src/test`): the fitness-matrix evaluator
(`evaluator.py`), the Stage-1 vocabulary-alignment loop (`evolve.py`), the
Pareto test selector and the CoCoEvo driver (`coevo_engine.py`), and the
population classes (`suite_manager.py`).

Modelling conventions:
* Python exceptions are modelled by `Except PyErr`; list indexing that can
  raise goes through `pyIdx`.
* Python floats are modelled by `ℚ`; `math.log2` (used only inside the
  discrimination entropy) is an injected function, since no verified claim
  depends on its values.
* The two external oracles of the spec — the Execution Oracle
  (`prolog_compiler.consult` / `extract_goal`) and the Synthesis Oracle
  (`utils.generate_content`, which `src/test/utils.py` does not even define)
  — are injected function parameters, as are the random draws
  (`random.randrange`, `random.sample`).
* File dumps, prints, CSV rows and log-directory plumbing are I/O side
  effects that the spec places out of scope; they are omitted.
-/

namespace ThesisRepo

/-- The kinds of Python exception the embedded code can raise. -/
inductive PyErr where
  | indexError
  | zeroDivisionError
  | typeError
  | valueError
  | runtimeError
  deriving DecidableEq, Repr

/-- Python list indexing `l[i]`, which raises IndexError when out of range. -/
def pyIdx {α : Type} (l : List α) (i : Nat) : Except PyErr α :=
  match l[i]? with
  | some x => .ok x
  | none => .error .indexError

instance {ε α : Type} [DecidableEq ε] [DecidableEq α] : DecidableEq (Except ε α)
  | .error e, .error f =>
    if h : e = f then .isTrue (by rw [h]) else .isFalse (by intro hh; cases hh; exact h rfl)
  | .error _, .ok _ => .isFalse (by intro hh; cases hh)
  | .ok _, .error _ => .isFalse (by intro hh; cases hh)
  | .ok a, .ok b =>
    if h : a = b then .isTrue (by rw [h]) else .isFalse (by intro hh; cases hh; exact h rfl)

/-- Python truthiness of a `str | None` value: `None` and `""` are falsy. -/
def pyTruthy : Option String → Bool
  | none => false
  | some s => !s.isEmpty

/-- Python's `sub in s` substring membership test. -/
def strContains (s sub : String) : Bool :=
  decide (sub.toList <:+: s.toList)

/-- Python's `len(xs) or 1` denominator floor used by `Evaluator.evaluate`. -/
def pyOr1 (n : Nat) : Nat := if n = 0 then 1 else n

/-- Python's `str.strip()`: drop whitespace from both ends.  Implemented over
the character list (extensionally `String.trim`) so that it evaluates inside
the kernel. -/
def pyStrip (s : String) : String :=
  ⟨((s.toList.dropWhile Char.isWhitespace).reverse.dropWhile Char.isWhitespace).reverse⟩

/-- Models `suite_manager.CandidateSolution` (src/test): mutable program text plus
fitness placeholders.  The fitness fields are initialised to the string
`"dummy"` in the source and overwritten with floats by the evaluator; the
placeholder state is modelled as `none`.  The random `id` and the printing
are omitted.  `original_program` is `Option String` because the constructor
stores the synthesis oracle's reply, which can be `None`. -/
structure CandidateSolution where
  original_program : Option String
  canonical_program : Option String
  logic_fitness : Option ℚ
  vocab_fitness : Option ℚ
  deriving DecidableEq, Repr

/-- Models `suite_manager.TestCase` (src/test): test text plus the attributes the
evaluator writes (`logic_confidence` / `logic_discrimination` via `setattr`).
The comment-splitting and `query_goal` regex of `__init__` are not needed by
any verified component and are omitted; `original_fact` holds the full
stored snippet. -/
structure TestCase where
  original_fact : String
  canonical_fact : Option String
  logic_fitness : Option ℚ
  vocab_fitness : Option ℚ
  logic_confidence : Option ℚ
  logic_discrimination : Option ℚ
  deriving DecidableEq, Repr

/-- Models `evaluator.Evaluator._is_vocab_error`: a failure reason indicates a
vocabulary error when it contains one of four substrings. -/
def Evaluator.is_vocab_error (reason : Option String) : Bool :=
  match reason with
  | none => false
  | some r =>
    if r.isEmpty then false
    else ["Unknown procedure", "Undefined procedure", "ERROR:", "Syntax error"].any
      fun sub => strContains r sub

/-- Models `evaluator.Evaluator._is_logic_error`.  The source reads
`any(substr in reason for substr in ("Goal failed"))`; `("Goal failed")` is a
parenthesised string, not a 1-tuple, so the generator iterates over its
characters and the test succeeds whenever `reason` contains any single
character of `"Goal failed"`. -/
def Evaluator.is_logic_error (reason : Option String) : Bool :=
  match reason with
  | none => false
  | some r =>
    if r.isEmpty then false
    else "Goal failed".toList.any fun c => r.toList.contains c

/-- Models `evaluator.Evaluator._run_single_test`.  `consult` models
`prolog_compiler.consult` (the Execution Oracle: returns `(passed, reason)`)
and `extract_goal` models `prolog_compiler.extract_goal` (which always
returns a string, possibly empty). -/
def Evaluator.run_single_test (consult : String → String → Bool × Option String)
    (extract_goal : String → String)
    (program fact : Option String) : String × Option String :=
  if !pyTruthy program || !pyTruthy fact then
    ("other_error", some "Missing program or test fact")
  else
    let goal := extract_goal (fact.getD "")
    if goal.isEmpty then ("other_error", some "Malformed test case")
    else
      let pr := consult (program.getD "") goal
      if !pr.1 then
        if Evaluator.is_vocab_error pr.2 then ("vocab_error", pr.2)
        else if Evaluator.is_logic_error pr.2 then ("logic_error", pr.2)
        else ("other_error", pr.2)
      else ("logic_pass", none)

/-- The `if sol.canonical_program is None: sol.canonical_program =
sol.original_program` fixup at the top of `Evaluator.evaluate`. -/
def fixCanonicalSol (s : CandidateSolution) : CandidateSolution :=
  match s.canonical_program with
  | none => { s with canonical_program := s.original_program }
  | some _ => s

/-- The corresponding `canonical_fact` fixup for test cases. -/
def fixCanonicalTest (t : TestCase) : TestCase :=
  match t.canonical_fact with
  | none => { t with canonical_fact := some t.original_fact }
  | some _ => t

/-- The inner loop of `Evaluator.evaluate`: one classified outcome per test
case for one solution. -/
def Evaluator.resultsRow (consult : String → String → Bool × Option String)
    (extract_goal : String → String)
    (s : CandidateSolution) (test_cases : List TestCase) :
    List (String × Option String) :=
  test_cases.map fun t =>
    Evaluator.run_single_test consult extract_goal s.canonical_program t.canonical_fact

/-- Logic-matrix cell: 1 exactly when the classified result is "logic_pass". -/
def Evaluator.logicCell (rc : String × Option String) : Nat :=
  if rc.1 == "logic_pass" then 1 else 0

/-- Vocab-matrix cell: 1 exactly when the classified result is neither
"vocab_error" nor "other_error" (`evaluator.py` lines 80-85). -/
def Evaluator.vocabCell (rc : String × Option String) : Nat :=
  if rc.1 != "vocab_error" && rc.1 != "other_error" then 1 else 0

/-- The test-level summary loop of `Evaluator.evaluate` (lines 116-125): it
only prints per-test pass counts, but it indexes `logic_matrix[i]` and
`vocab_matrix[i]` for `i in range(num_sols)` where `num_sols` is floored to 1
by `len(solutions) or 1`; the IndexError it can raise is its one embedded
effect. -/
def Evaluator.testSummaryCheck (logic_matrix vocab_matrix : List (List Nat))
    (numTests num_sols : Nat) : Except PyErr Unit := do
  let _ ← (List.range numTests).mapM fun j => do
    let _ ← (List.range num_sols).mapM fun i => do
      let lrow ← pyIdx logic_matrix i
      let _ ← pyIdx lrow j
      pure ()
    let _ ← (List.range num_sols).mapM fun i => do
      let vrow ← pyIdx vocab_matrix i
      let _ ← pyIdx vrow j
      pure ()
    pure ()
  pure ()

/-- Models `evaluator.Evaluator._compute_confidence` for the attribute
`logic_confidence`: weighted pass rate over the logic matrix column, 0 when
the total weight is 0. -/
def Evaluator.compute_confidence (matrix : List (List Nat)) (fitness_vector : List ℚ)
    (test_cases : List TestCase) : List TestCase :=
  let total_weight := fitness_vector.sum
  test_cases.mapIdx fun j tc =>
    let conf : ℚ :=
      if total_weight = 0 then 0
      else (((matrix.zip fitness_vector).map fun p => ((p.1.getD j 0 : ℚ)) * p.2).sum)
        / total_weight
    { tc with logic_confidence := some conf }

/-- Models `evaluator.Evaluator._compute_discrimination` for the attribute
`logic_discrimination`: binary entropy of the column pass fraction, forced to
0 at p ∈ {0, 1}.  `log2` injects `math.log2`. -/
def Evaluator.compute_discrimination (log2 : ℚ → ℚ) (matrix : List (List Nat))
    (test_cases : List TestCase) : List TestCase :=
  let total := matrix.length
  test_cases.mapIdx fun j tc =>
    let p : ℚ := if total = 0 then 0 else ((matrix.map fun row => row.getD j 0).sum : ℚ) / total
    let disc : ℚ := if p = 0 ∨ p = 1 then 0 else -(p * log2 p + (1 - p) * log2 (1 - p))
    { tc with logic_discrimination := some disc }

/-- The full result grid of one evaluation pass: one classified outcome per
(solution, test) pair, after the canonical fixups. -/
def Evaluator.resultsMatrix (consult : String → String → Bool × Option String)
    (extract_goal : String → String)
    (solutions : List CandidateSolution) (test_cases : List TestCase) :
    List (List (String × Option String)) :=
  (solutions.map fixCanonicalSol).map fun s =>
    Evaluator.resultsRow consult extract_goal s (test_cases.map fixCanonicalTest)

/-- Everything `Evaluator.evaluate` computes and stores. -/
structure EvalResult where
  solutions : List CandidateSolution
  test_cases : List TestCase
  logic_matrix : List (List Nat)
  vocab_matrix : List (List Nat)
  errors_matrix : List (List String)
  deriving DecidableEq, Repr

/-- The pure core of `evaluator.Evaluator.evaluate` (src/test): canonical
fixups, the solution-level loop building both matrices and overwriting each
solution's fitness (denominator `len(test_cases) or 1`), then the
confidence/discrimination assignment to test cases. -/
def Evaluator.evaluateCore (consult : String → String → Bool × Option String)
    (extract_goal : String → String) (log2 : ℚ → ℚ)
    (solutions : List CandidateSolution) (test_cases : List TestCase) : EvalResult :=
  let total : ℚ := (pyOr1 test_cases.length : ℚ)
  let solutions := solutions.map fixCanonicalSol
  let test_cases := test_cases.map fixCanonicalTest
  let results := solutions.map fun s => Evaluator.resultsRow consult extract_goal s test_cases
  let logic_matrix := results.map fun row => row.map Evaluator.logicCell
  let vocab_matrix := results.map fun row => row.map Evaluator.vocabCell
  let errors_matrix := results.map fun row => row.map fun rc => rc.2.getD ""
  let solutions := (solutions.zip results).map fun p =>
    { p.1 with
      logic_fitness := some (((p.2.map Evaluator.logicCell).sum : ℚ) / total)
      vocab_fitness := some (((p.2.map Evaluator.vocabCell).sum : ℚ) / total) }
  let logic_fitnesses := solutions.map fun s => s.logic_fitness.getD 0
  let test_cases := Evaluator.compute_confidence logic_matrix logic_fitnesses test_cases
  let test_cases := Evaluator.compute_discrimination log2 logic_matrix test_cases
  ⟨solutions, test_cases, logic_matrix, vocab_matrix, errors_matrix⟩

/-- Models `evaluator.Evaluator.evaluate` (src/test): the matrix/fitness computation
of `evaluateCore` followed by the test-level summary loop, whose indexing can
raise IndexError (the summary runs before confidence/discrimination in the
source, but on the raising path the later assignments are unobservable, so
the composition order here is equivalent). -/
def Evaluator.evaluate (consult : String → String → Bool × Option String)
    (extract_goal : String → String) (log2 : ℚ → ℚ)
    (solutions : List CandidateSolution) (test_cases : List TestCase) :
    Except PyErr EvalResult :=
  match Evaluator.testSummaryCheck
      (Evaluator.evaluateCore consult extract_goal log2 solutions test_cases).logic_matrix
      (Evaluator.evaluateCore consult extract_goal log2 solutions test_cases).vocab_matrix
      test_cases.length
      (pyOr1 (Evaluator.evaluateCore consult extract_goal log2
        solutions test_cases).solutions.length) with
  | .error e => .error e
  | .ok _ => .ok (Evaluator.evaluateCore consult extract_goal log2 solutions test_cases)

/-- A consult oracle under which every (program, goal) pair passes. -/
def consultAllPass : String → String → Bool × Option String := fun _ _ => (true, none)

/-- A consult oracle under which every pair fails with a vocabulary-error
reason (contains the "ERROR:" marker of `_is_vocab_error`). -/
def consultAllVocabFail : String → String → Bool × Option String :=
  fun _ _ => (false, some "ERROR: Undefined procedure foo/2")

/-- A consult oracle returning the `(False, "Timeout")` result produced by
`prolog_compiler.consult` when the SWI-Prolog subprocess hits
`subprocess.TimeoutExpired` (prolog_compiler.py lines 74-77). -/
def consultTimeout : String → String → Bool × Option String :=
  fun _ _ => (false, some "Timeout")

/-- A goal-extraction function that returns its input unchanged (the
bare-goal fallback of `prolog_compiler.extract_goal` on a fact with no
trailing dot and no comments). -/
def extractGoalId : String → String := fun s => s

/-- A stand-in for `math.log2`; no verified claim depends on its values. -/
def log2Zero : ℚ → ℚ := fun _ => 0

/-- A sample candidate program as freshly constructed (placeholders unset). -/
def sampleSolution : CandidateSolution := ⟨some "p.", none, none, none⟩

/-- A sample test case as freshly constructed. -/
def sampleTest : TestCase := ⟨"t.", none, none, none, none, none⟩

/-- Models `evolve.compute_pass_rates`: per-row and per-column averages of a 0/1
matrix.  `n_test` is `len(pass_matrix[0])`; when the matrix is non-empty but
its first row is empty, the `sum(row) / n_test` comprehension raises
ZeroDivisionError.  Column sums index `pass_matrix[i][j]`, which can raise
IndexError on ragged input. -/
def compute_pass_rates (pass_matrix : List (List Nat)) :
    Except PyErr (List ℚ × List ℚ) := do
  if pass_matrix.isEmpty then
    return ([], [])
  let n_prog := pass_matrix.length
  let n_test := (pass_matrix.headD []).length
  if n_test = 0 then
    throw .zeroDivisionError
  let prog_rates := pass_matrix.map fun row => ((row.sum : ℚ) / (n_test : ℚ))
  let test_rates ← (List.range n_test).mapM fun j => do
    let col ← pass_matrix.mapM fun row => pyIdx row j
    return ((col.sum : ℚ) / (n_prog : ℚ))
  return (prog_rates, test_rates)

/-- The "program" / "test" discriminant used by Stage-1 repair targeting
(spec §9 models it as a closed two-state type). -/
inductive Kind where
  | program
  | test
  deriving DecidableEq, Repr

/-- One `rotate(-1)` of the module-global two-element deque `_catastrophe`:
the front flips to the other kind. -/
def Kind.other : Kind → Kind
  | .program => .test
  | .test => .program

/-- The eligibility test of `evolve.select_refactor_target` (lines 61-81):
a `(kind, idx)` is skipped when its repair attempts have reached
`max_repair_tries` or when it was last repaired within `cooldown_iters`
iterations.  `repair_attempts` models the `defaultdict(int)` (total function
with default 0) and `last_fixed_iter` the plain dict (`none` = absent key). -/
def eligibleKey (iteration : Nat) (repair_attempts : Kind × Nat → Nat)
    (last_fixed_iter : Kind × Nat → Option Nat)
    (max_repair_tries cooldown_iters : Nat) (k : Kind) (i : Nat) : Bool :=
  decide (repair_attempts (k, i) < max_repair_tries) &&
  !(match last_fixed_iter (k, i) with
    | some t => decide ((iteration : Int) - (t : Int) ≤ (cooldown_iters : Int))
    | none => false)

/-- The candidate list of `select_refactor_target`: eligible programs first,
then eligible tests, each carrying its pass rate. -/
def eligible_candidates (prog_rates test_rates : List ℚ) (iteration : Nat)
    (repair_attempts : Kind × Nat → Nat)
    (last_fixed_iter : Kind × Nat → Option Nat)
    (max_repair_tries cooldown_iters : Nat) : List (Kind × Nat × ℚ) :=
  ((prog_rates.mapIdx fun i r => (Kind.program, i, r)).filter fun c =>
    eligibleKey iteration repair_attempts last_fixed_iter max_repair_tries
      cooldown_iters c.1 c.2.1) ++
  ((test_rates.mapIdx fun j r => (Kind.test, j, r)).filter fun c =>
    eligibleKey iteration repair_attempts last_fixed_iter max_repair_tries
      cooldown_iters c.1 c.2.1)

/-- Models `evolve.select_refactor_target`.  In the normal case it picks the first
candidate with the minimal pass rate (Python's `min` keeps the first
minimum).  When every candidate is blocked it falls back to the catastrophe
alternation: take the deque front, rotate the deque, and pick a uniformly
random index of that kind — `pick` models `random.randrange`, its draw taken
modulo the population size (`randrange(0)` raises ValueError).  Returns the
chosen `(kind, idx)` together with the deque front after the call. -/
def select_refactor_target (prog_rates test_rates : List ℚ) (iteration : Nat)
    (repair_attempts : Kind × Nat → Nat)
    (last_fixed_iter : Kind × Nat → Option Nat)
    (catastrophe : Kind) (pick : Nat → Nat)
    (max_repair_tries cooldown_iters : Nat) :
    Except PyErr ((Kind × Nat) × Kind) :=
  match eligible_candidates prog_rates test_rates iteration repair_attempts
      last_fixed_iter max_repair_tries cooldown_iters with
  | [] =>
    let target := catastrophe
    let len := (match target with
      | .program => prog_rates
      | .test => test_rates).length
    if len = 0 then .error .valueError
    else .ok ((target, pick len % len), catastrophe.other)
  | c :: cs =>
    let best := cs.foldl (fun b x => if x.2.2 < b.2.2 then x else b) c
    .ok ((best.1, best.2.1), catastrophe)

/-- Models `evolve.repair_program`.  `synth` models the composition of the repair
prompt f-string with the Synthesis Oracle `utils.generate_content` (absent
from `src/test/utils.py`; spec §6 treats it as an injected interface): it
receives the target program's text and the failing tests' texts.  A truthy
(non-`None`, non-empty) reply overwrites `original_program` with the stripped
reply, otherwise the repair is a no-op.  Note that only `original_program` is
written; `canonical_program` is left as it was. -/
def repair_program (synth : Option String → List String → Option String)
    (solutions : List CandidateSolution) (p_idx : Nat)
    (failing_tests : List TestCase) : Except PyErr (List CandidateSolution) := do
  let sol ← pyIdx solutions p_idx
  match synth sol.original_program (failing_tests.map fun t => t.original_fact) with
  | some updated =>
    if updated.isEmpty then return solutions
    return solutions.set p_idx { sol with original_program := some (pyStrip updated) }
  | none => return solutions

/-- Models `evolve.repair_test`: same shape as `repair_program`, with the prompt
built via `prompts.TEST_REPAIR_PROMPT` (also absent from `src/test`) from the
failing query and the failing programs' texts; a truthy reply overwrites
`original_fact` with the stripped reply. -/
def repair_test (synth : String → List (Option String) → Option String)
    (test_cases : List TestCase) (t_idx : Nat)
    (failing_progs : List CandidateSolution) : Except PyErr (List TestCase) := do
  let tc ← pyIdx test_cases t_idx
  match synth tc.original_fact (failing_progs.map fun p => p.original_program) with
  | some updated =>
    if updated.isEmpty then return test_cases
    return test_cases.set t_idx { tc with original_fact := pyStrip updated }
  | none => return test_cases

/-- The two population lists held by `suite_manager.SuiteManager` (the
evaluator object and log directory it also carries are recomputed /
out-of-scope state). -/
structure SuiteManager where
  solutions : List CandidateSolution
  test_cases : List TestCase
  deriving DecidableEq, Repr

/-- The injected external collaborators (spec §6) plus the random draws:
`consult` / `extract_goal` form the Execution Oracle, `synth_program` /
`synth_test` the Synthesis Oracle behind the two repair prompts, `log2` is
`math.log2`, and `pick it n` is the `random.randrange(n)` draw of Stage-1
iteration `it`. -/
structure Oracles where
  consult : String → String → Bool × Option String
  extract_goal : String → String
  log2 : ℚ → ℚ
  synth_program : Option String → List String → Option String
  synth_test : String → List (Option String) → Option String
  pick : Nat → Nat → Nat

/-- The body of `evolve.run_vocab_alignment`'s `for it in range(1,
max_iters+1)` loop, recursing on the remaining iteration count (`fuel`).
Each executed iteration: evaluate, invert `vocab_matrix` into `pass_matrix`
(`1 - cell`), compute rates, return `False` when nothing was evaluated,
return `True` when all rates reach the threshold, otherwise select and
repair one target and record the attempt.  The returned `Nat` counts the
evaluation passes performed (also on exception paths). -/
def run_vocab_alignment_go (O : Oracles) (GOOD_THRESHOLD : ℚ)
    (repair_attempts : Kind × Nat → Nat)
    (last_fixed_iter : Kind × Nat → Option Nat)
    (sm : SuiteManager) (cat : Kind) (it : Nat) :
    (fuel : Nat) → Except PyErr (Bool × SuiteManager × Kind) × Nat
  | 0 => (.ok (false, sm, cat), 0)
  | fuel + 1 =>
    match Evaluator.evaluate O.consult O.extract_goal O.log2 sm.solutions sm.test_cases with
    | .error e => (.error e, 1)
    | .ok r =>
      let sm : SuiteManager := ⟨r.solutions, r.test_cases⟩
      let pass_matrix := r.vocab_matrix.map fun row => row.map fun cell => 1 - cell
      match compute_pass_rates pass_matrix with
      | .error e => (.error e, 1)
      | .ok rates =>
        let prog_rates := rates.1
        let test_rates := rates.2
        if prog_rates.isEmpty || test_rates.isEmpty then (.ok (false, sm, cat), 1)
        else if (prog_rates.all fun r => GOOD_THRESHOLD ≤ r) &&
            (test_rates.all fun r => GOOD_THRESHOLD ≤ r) then
          (.ok (true, sm, cat), 1)
        else
          match select_refactor_target prog_rates test_rates it repair_attempts
              last_fixed_iter cat (O.pick it) 2 1 with
          | .error e => (.error e, 1)
          | .ok ((target, idx), cat') =>
            let repaired : Except PyErr SuiteManager :=
              match target with
              | .program => do
                let row ← pyIdx pass_matrix idx
                let js := (row.mapIdx fun j ok => (j, ok)).filterMap fun p =>
                  if p.2 = 0 then some p.1 else none
                let failing ← js.mapM fun j => pyIdx sm.test_cases j
                let sols ← repair_program O.synth_program sm.solutions idx failing
                return ⟨sols, sm.test_cases⟩
              | .test => do
                let cells ← pass_matrix.mapM fun row => pyIdx row idx
                let is := ((cells.mapIdx fun i ok => (i, ok)).filterMap fun p =>
                  if p.2 = 0 then some p.1 else none)
                let failing ← is.mapM fun i => pyIdx sm.solutions i
                let ts ← repair_test O.synth_test sm.test_cases idx failing
                return ⟨sm.solutions, ts⟩
            match repaired with
            | .error e => (.error e, 1)
            | .ok sm' =>
              let ra' := fun k => if k = (target, idx) then repair_attempts k + 1
                else repair_attempts k
              let lf' := fun k => if k = (target, idx) then some it else last_fixed_iter k
              let rest := run_vocab_alignment_go O GOOD_THRESHOLD ra' lf' sm' cat'
                (it + 1) fuel
              (rest.1, rest.2 + 1)

/-- Models `evolve.run_vocab_alignment` (src/test): fresh `repair_attempts`
(defaultdict) and `last_fixed_iter` (empty dict), iterations `1..max_iters`.
`cat` is the module-global catastrophe-deque front entering the call; the
final front is returned with the result. -/
def run_vocab_alignment (O : Oracles) (GOOD_THRESHOLD : ℚ) (max_iters : Nat)
    (sm : SuiteManager) (cat : Kind) :
    Except PyErr (Bool × SuiteManager × Kind) × Nat :=
  run_vocab_alignment_go O GOOD_THRESHOLD (fun _ => 0) (fun _ => none) sm cat 1 max_iters

/-- The Boolean verdict of a Stage-1 run, `none` when it raised. -/
def alignmentVerdict (r : Except PyErr (Bool × SuiteManager × Kind)) : Option Bool :=
  match r with
  | .ok x => some x.1
  | .error _ => none

/-- One test record of `CoCoEvoEngine.test_population`: the dict
`{idx, conf, disc, fitness}` built by `_evaluate_logic`. -/
structure TestInfo where
  idx : Nat
  conf : ℚ
  disc : ℚ
  fitness : ℚ
  deriving DecidableEq, Repr

/-- Models `coevo_engine.dominates`: `a` dominates `b` iff `a` is weakly better on
every metric and strictly better on at least one. -/
def dominates (metrics : List (TestInfo → ℚ)) (a b : TestInfo) : Bool :=
  (metrics.all fun m => decide (m b ≤ m a)) && (metrics.any fun m => decide (m b < m a))

/-- One round of `coevo_engine.build_pareto_front`: the members of
`remaining` not dominated by any other member.  (The source guards the inner
check with `q is not p` — object identity; dominance is irreflexive on equal
metric values, so the value-inequality used here is equivalent.) -/
def paretoFront (metrics : List (TestInfo → ℚ)) (remaining : List TestInfo) :
    List TestInfo :=
  remaining.filter fun p =>
    !(remaining.any fun q => decide (q ≠ p) && dominates metrics q p)

/-- The `while remaining:` loop of `coevo_engine.build_pareto_front`,
recursing on an explicit iteration bound.  Each round removes a non-empty
front from `remaining` (see `paretoFront_ne_nil`), so the loop makes at most
`pop.length` rounds and the bound never truncates
(`buildFrontsGo_fuel_stable`). -/
def buildFrontsGo (metrics : List (TestInfo → ℚ)) :
    Nat → List TestInfo → List (List TestInfo)
  | 0, _ => []
  | _, [] => []
  | fuel + 1, remaining =>
    let front := paretoFront metrics remaining
    front :: buildFrontsGo metrics fuel (remaining.filter fun p => !front.contains p)

/-- Models `coevo_engine.build_pareto_front`: layered non-dominated sorting. -/
def build_pareto_front (pop : List TestInfo) (metrics : List (TestInfo → ℚ)) :
    List (List TestInfo) :=
  buildFrontsGo metrics pop.length pop

/-- The selection modes of `coevo_engine.pareto_selection` as a closed type
(the `raise ValueError` branch for an unknown mode string is therefore
unreachable). -/
inductive SelMode where
  | strict
  | auto
  deriving DecidableEq, Repr

/-- The `for i in range(1, len(fronts))` accumulation loop of
`coevo_engine.pareto_selection`.  `sample f k` models `random.sample(f, k)`;
the strict branch uses a stable descending sort on `fitness` (Python's
`sorted` with `reverse=True`).  When a front only partially fits, the source
appends the fill and lets the next loop iteration hit the
`len(selected) >= select_size` break, which the recursion mirrors. -/
def paretoSelLoop (sample : List TestInfo → Nat → List TestInfo) (mode : SelMode)
    (select_size : Nat) :
    List TestInfo → List (List TestInfo) → List TestInfo
  | selected, [] => selected
  | selected, f :: rest =>
    if select_size ≤ selected.length then selected
    else if selected.length + f.length ≤ select_size then
      paretoSelLoop sample mode select_size (selected ++ f) rest
    else
      match mode with
      | .strict =>
        let f_sorted := f.mergeSort fun a b => decide (b.fitness ≤ a.fitness)
        paretoSelLoop sample mode select_size
          (selected ++ f_sorted.take (select_size - selected.length)) rest
      | .auto =>
        paretoSelLoop sample mode select_size
          (selected ++ sample f (select_size - selected.length)) rest

/-- Models `coevo_engine.pareto_selection`.  `fronts[0]` raises IndexError on an
empty population; the optional `filter_algo == "avg"` post-filter keeps the
individuals whose scalar fitness reaches the population average
(`sum / max(1, len)`). -/
def pareto_selection (sample : List TestInfo → Nat → List TestInfo)
    (test_population : List TestInfo) (select_size : Nat)
    (metrics : List (TestInfo → ℚ)) (mode : SelMode) (filter_avg : Bool) :
    Except PyErr (List TestInfo) :=
  match build_pareto_front test_population metrics with
  | [] => .error .indexError
  | f0 :: rest =>
    let selected := paretoSelLoop sample mode select_size f0 rest
    if filter_avg then
      let avg_fit : ℚ := ((test_population.map fun t => t.fitness).sum)
        / ((max 1 test_population.length : Nat) : ℚ)
      .ok (selected.filter fun s => decide (avg_fit ≤ s.fitness))
    else .ok selected

/-- Models `suite_manager.CandidateSolution.__init__` (src/test): signature
`(self, contract_text, prompt=None)`; it stores the Synthesis Oracle's reply
(`generate_content`, possibly `None`) as `original_program` and placeholder
values elsewhere.  It has no `program_text` parameter. -/
def CandidateSolution.init (genResult : Option String) : CandidateSolution :=
  ⟨genResult, none, none, none⟩

/-- Models `coevo_engine.CoCoEvoEngine._spawn_program`, from the point where the
child text `raw` has been produced (`_crossover_programs` / `_mutate_program`
return `result or ""`, so `raw = genResult or ""`).  An all-whitespace `raw`
aborts the spawn with `(None, None)` and no insertion.  Otherwise the source
executes `CandidateSolution(self.contract_text, program_text=raw)`, but
`suite_manager.CandidateSolution.__init__` accepts only
`(contract_text, prompt=None)` — CPython raises
`TypeError: unexpected keyword argument` before any insertion, modelled as
`.error .typeError`.  On the `ok` path the returned index is the appended
position (`none` = Python `None`). -/
def CoCoEvoEngine.spawn_program (genResult : Option String)
    (solutions : List CandidateSolution) :
    Except PyErr (Option Nat × List CandidateSolution) :=
  let raw := genResult.getD ""
  if (pyStrip raw).isEmpty then .ok (none, solutions)
  else .error .typeError

/-- Models `suite_manager.SuiteManager.generate_solutions`: appends `num` fresh
`CandidateSolution`s; `progText i` is the oracle reply for the `i`-th prompt.
(The `prompt_fns[i] is None` skip branch is not taken at the embedded call
sites: `_reseed_populations` passes either all-lambda prompt lists or no
list.) -/
def generate_solutions (progText : Nat → Option String) (num : Nat)
    (sm : SuiteManager) : SuiteManager :=
  { sm with solutions :=
      sm.solutions ++ (List.range num).map fun i => CandidateSolution.init (progText i) }

/-- Models `coevo_engine.CoCoEvoEngine._reseed_populations`: clear both populations,
append `pop_cap_programs` solutions twice (once with the "super secret"
prompt list, once with default prompts) — the test population is never
reseeded — then run one Stage-1 alignment whose Boolean result is discarded
(`max_iters` is the engine's current, already decremented,
`max_reseed_attempts`). -/
def CoCoEvoEngine.reseed_populations (O : Oracles)
    (progText1 progText2 : Nat → Option String) (pop_cap_programs : Nat)
    (attempts : Nat) (cat : Kind) : Except PyErr (SuiteManager × Kind) :=
  let sm : SuiteManager := ⟨[], []⟩
  let sm := generate_solutions progText1 pop_cap_programs sm
  let sm := generate_solutions progText2 pop_cap_programs sm
  match (run_vocab_alignment O (8/10) attempts sm cat).1 with
  | .error e => .error e
  | .ok x => .ok (x.2.1, x.2.2)

/-- The Stage-1 precondition loop at the top of `CoCoEvoEngine.run`
(coevo_engine.py lines 459-473):

    while not flag and self.max_reseed_attempts > 0:
        if self._ensure_vocab_alignment(): flag = True
        elif self.max_reseed_attempts > 0:
            self.max_reseed_attempts -= 1; self._reseed_populations()
        else: raise RuntimeError(...)

recursing on the attempts counter (each non-exit iteration decrements it).
Normal termination — `flag` set, or the counter reaching 0 with `flag` still
False — falls through to `self._evaluate_logic(scope="initial")` and the
generational loop; the returned `Nat` is the number of reseeds performed.
The `raise RuntimeError` branch is kept verbatim: it requires the `elif`
guard `max_reseed_attempts > 0` to fail while the loop guard just ensured it
holds. -/
def CoCoEvoEngine.run_prelude (O : Oracles)
    (progText1 progText2 : Nat → Nat → Option String) (pop_cap_programs : Nat) :
    SuiteManager → Kind → (attempts : Nat) → (reseeds : Nat) →
    Except PyErr (Nat × SuiteManager × Kind)
  | sm, cat, 0, reseeds => .ok (reseeds, sm, cat)
  | sm, cat, n + 1, reseeds =>
    match (run_vocab_alignment O (8/10) (n + 1) sm cat).1 with
    | .error e => .error e
    | .ok (true, sm', cat') => .ok (reseeds, sm', cat')
    | .ok (false, _, cat') =>
      if n + 1 > 0 then
        match CoCoEvoEngine.reseed_populations O (progText1 reseeds) (progText2 reseeds)
            pop_cap_programs n cat' with
        | .error e => .error e
        | .ok (sm'', cat'') =>
          CoCoEvoEngine.run_prelude O progText1 progText2 pop_cap_programs
            sm'' cat'' n (reseeds + 1)
      else .error .runtimeError

/-- The number of reseeds a prelude run performed, when it did not raise. -/
def preludeReseeds (r : Except PyErr (Nat × SuiteManager × Kind)) : Except PyErr Nat :=
  match r with
  | .ok x => .ok x.1
  | .error e => .error e

/-- A synthesis oracle that always fails (`generate_content` returns None). -/
def synthProgramNone : Option String → List String → Option String := fun _ _ => none

/-- A test-repair synthesis oracle that always fails. -/
def synthTestNone : String → List (Option String) → Option String := fun _ _ => none

/-- Oracles: every execution passes, synthesis always fails, randrange
draws 0. -/
def oraclesAllPass : Oracles :=
  ⟨consultAllPass, extractGoalId, log2Zero, synthProgramNone, synthTestNone, fun _ _ => 0⟩

/-- Oracles: every execution fails with a vocabulary error. -/
def oraclesAllVocabFail : Oracles :=
  ⟨consultAllVocabFail, extractGoalId, log2Zero, synthProgramNone, synthTestNone, fun _ _ => 0⟩

/-- The 1-program / 1-test initial population used by the concrete runs. -/
def sampleSuite : SuiteManager := ⟨[sampleSolution], [sampleTest]⟩

/-- A `random.sample` model that takes the first `k` elements. -/
def takeSample : List TestInfo → Nat → List TestInfo := fun f k => f.take k

/-- A test record strong on confidence, weak on discrimination. -/
def tiA : TestInfo := ⟨0, 1, 0, 0⟩

/-- A test record weak on confidence, strong on discrimination; `tiA` and
`tiB` are mutually non-dominated on (conf, disc). -/
def tiB : TestInfo := ⟨1, 0, 1, 0⟩

/-- The metric accessors for `metrics=["conf", "disc"]`. -/
def confDiscMetrics : List (TestInfo → ℚ) := [fun t => t.conf, fun t => t.disc]

/-- The value of `sampleSolution` after one all-pass evaluation. -/
def sampleSolutionEvaluated : CandidateSolution :=
  ⟨some "p.", some "p.", some 1, some 1⟩

/-- The full evaluation result of the 1-program / 1-test population under the
all-pass oracle. -/
def sampleEvalResult : EvalResult :=
  ⟨[sampleSolutionEvaluated],
   [⟨"t.", some "t.", none, none, some 1, some 0⟩],
   [[1]], [[1]], [[""]]⟩

/-!  ## Theorems  -/

/-- C6: a failed execution whose detail is the oracle's "Timeout" is
classified by the evaluator as `logic_error`, not `other_error`: the
missing comma in `_is_logic_error`'s `("Goal failed")` makes the check a
per-character scan, which "Timeout" satisfies (it contains 'o', 'i', 'e').
This contradicts the claim (and the evaluator's own catch-all `other_error`
branch, and spec §7, which reserve OTHER_FAIL for timeouts). -/
theorem timeout_classified_logic_error :
    Evaluator.run_single_test consultTimeout extractGoalId (some "p.") (some "t.")
      = ("logic_error", some "Timeout") ∧
    Evaluator.is_logic_error (some "Timeout") = true ∧
    Evaluator.is_vocab_error (some "Timeout") = false := by
  refine ⟨by decide, by decide, by decide⟩

/-- C10: `Evaluator.evaluate` called with an empty program population and a
non-empty test population raises IndexError (the test-level summary loop
indexes `logic_matrix[0]` after `num_sols` was floored to 1), contradicting
the claim that it returns normally with zero-row matrices; only when the
test population is also empty does it return normally. -/
theorem evaluate_empty_programs :
    Evaluator.evaluate consultAllPass extractGoalId log2Zero [] [sampleTest]
      = .error .indexError ∧
    Evaluator.evaluate consultAllPass extractGoalId log2Zero [] []
      = .ok ⟨[], [], [], [], []⟩ := by
  refine ⟨by decide, by decide⟩

/-- C3: in `_spawn_program`, an empty (or all-whitespace, or `None`) child
text is discarded without insertion — that half of the claim holds — but a
non-empty child text does not yield an appended `CandidateSolution`: the
constructor call `CandidateSolution(self.contract_text, program_text=raw)`
raises TypeError because `suite_manager.CandidateSolution.__init__` has no
`program_text` parameter (the repository's own tests construct
`CandidateSolution(..., program_text=...)`, so the stale signature is the
slip). -/
theorem spawn_program_empty_discarded_nonempty_raises :
    CoCoEvoEngine.spawn_program (some "a.") [sampleSolution] = .error .typeError ∧
    CoCoEvoEngine.spawn_program (some "   ") [sampleSolution]
      = .ok (none, [sampleSolution]) ∧
    CoCoEvoEngine.spawn_program none [sampleSolution] = .ok (none, [sampleSolution]) := by
  refine ⟨by decide, by decide, by decide⟩

unseal Rat.mul Rat.inv Rat.add Rat.sub in
/-- C1: Stage 1 does not report success when every vocab-matrix entry is 1
(= executed without VOCAB_FAIL / OTHER_FAIL): `run_vocab_alignment` inverts
the evaluator's vocab matrix (`pass_matrix = [[1 - cell ...]]`) before
computing rates, so with a 1-program / 1-test population whose only pair
vocab-passes it computes rates 0 and returns False, and with the only pair
vocab-FAILING it computes rates 1 and reports success — the exact opposite
of the claimed `1 = pass` reading. -/
theorem stage1_success_check_inverts_vocab_matrix :
    alignmentVerdict (run_vocab_alignment oraclesAllPass (8/10) 1 sampleSuite
      Kind.program).1 = some false ∧
    alignmentVerdict (run_vocab_alignment oraclesAllVocabFail (8/10) 1 sampleSuite
      Kind.program).1 = some true := by
  refine ⟨by decide, by decide⟩

unseal Rat.mul Rat.inv Rat.add Rat.sub in
/-- C2: with an initial population that never aligns (the execution oracle
passes every pair, which the inverted success check of C1 counts as fully
misaligned), `CoCoEvoEngine.run`'s precondition loop with
`max_reseed_attempts = 1` performs its 1 reseed and then falls through into
the generational phase with no exception — the `raise RuntimeError` branch
is unreachable because its guard is implied by the loop guard — and with
`max_reseed_attempts = 2` the first reseed raises ZeroDivisionError
(`_reseed_populations` clears the test population and reseeds only
programs, so the next alignment pass divides by `n_test = 0`).  Either way
no RuntimeError surfaces after `max_reseed_attempts` reseeds. -/
theorem reseed_exhaustion_not_fatal :
    preludeReseeds (CoCoEvoEngine.run_prelude oraclesAllPass (fun _ _ => none)
      (fun _ _ => none) 1 sampleSuite Kind.program 1 0) = .ok 1 ∧
    CoCoEvoEngine.run_prelude oraclesAllPass (fun _ _ => none) (fun _ _ => none) 1
      sampleSuite Kind.program 2 0 = .error .zeroDivisionError := by
  refine ⟨by decide, by decide⟩

/-- C5 counterexample: the fallback path of `select_refactor_target` ignores
the attempt cap and the cooldown.  State reachable by a 1-program / 1-test
Stage-1 run (program repaired at iterations 1 and 3, test at 2 and 4, deque
front on "test" from prior catastrophe rotations): at iteration 5 both pairs
are blocked — `(test, 0)` has `repair_attempts = 2 = max_repair_tries` and
was last repaired at iteration 4 = 5 - 1 with `cooldown_iters = 1` — yet the
fallback selects `(test, 0)` a third time, one iteration after its repair. -/
theorem fallback_reselects_blocked_target :
    select_refactor_target [0] [0] 5 (fun _ => 2)
      (fun k => if k = (Kind.program, 0) then some 3 else some 4)
      Kind.test (fun _ => 0) 2 1 = .ok ((Kind.test, 0), Kind.program) := by
  decide

/-- C4 counterexample: `pareto_selection` with two mutually non-dominated
individuals (front 0 = both) and `cap = 1` returns both — size 2 > cap —
because the source starts from `selected = fronts[0]` unconditionally; and
on the empty population it raises IndexError at `fronts[0]` instead of
returning a subset. -/
theorem pareto_selection_cap_violated :
    pareto_selection takeSample [tiA, tiB] 1 confDiscMetrics .auto false
      = .ok [tiA, tiB] ∧
    pareto_selection takeSample [] 1 confDiscMetrics .auto false
      = .error .indexError := by
  refine ⟨by decide, by decide⟩

/-- Helper: an `ok` result of `Evaluator.evaluate` is the core result. -/
theorem Evaluator.evaluate_ok_eq (consult : String → String → Bool × Option String)
    (extract_goal : String → String) (log2 : ℚ → ℚ)
    (solutions : List CandidateSolution) (test_cases : List TestCase) (r : EvalResult)
    (hr : Evaluator.evaluate consult extract_goal log2 solutions test_cases = .ok r) :
    r = Evaluator.evaluateCore consult extract_goal log2 solutions test_cases := by
  unfold Evaluator.evaluate at hr
  split at hr
  · exact absurd hr (by simp)
  · injection hr with h
    exact h.symm

/-- Helper: the logic matrix of the core result, row-wise over the results
grid. -/
theorem Evaluator.evaluateCore_logic_matrix
    (consult : String → String → Bool × Option String)
    (extract_goal : String → String) (log2 : ℚ → ℚ)
    (solutions : List CandidateSolution) (test_cases : List TestCase) :
    (Evaluator.evaluateCore consult extract_goal log2 solutions test_cases).logic_matrix
      = (Evaluator.resultsMatrix consult extract_goal solutions test_cases).map
          fun row => row.map Evaluator.logicCell := rfl

/-- Helper: the vocab matrix of the core result. -/
theorem Evaluator.evaluateCore_vocab_matrix
    (consult : String → String → Bool × Option String)
    (extract_goal : String → String) (log2 : ℚ → ℚ)
    (solutions : List CandidateSolution) (test_cases : List TestCase) :
    (Evaluator.evaluateCore consult extract_goal log2 solutions test_cases).vocab_matrix
      = (Evaluator.resultsMatrix consult extract_goal solutions test_cases).map
          fun row => row.map Evaluator.vocabCell := rfl

/-- Helper: the updated solutions of the core result. -/
theorem Evaluator.evaluateCore_solutions
    (consult : String → String → Bool × Option String)
    (extract_goal : String → String) (log2 : ℚ → ℚ)
    (solutions : List CandidateSolution) (test_cases : List TestCase) :
    (Evaluator.evaluateCore consult extract_goal log2 solutions test_cases).solutions
      = ((solutions.map fixCanonicalSol).zip
          (Evaluator.resultsMatrix consult extract_goal solutions test_cases)).map
          fun p =>
            { p.1 with
              logic_fitness := some (((p.2.map Evaluator.logicCell).sum : ℚ)
                / (pyOr1 test_cases.length : ℚ))
              vocab_fitness := some (((p.2.map Evaluator.vocabCell).sum : ℚ)
                / (pyOr1 test_cases.length : ℚ)) } := rfl

/-- Helper: a cell of value 1 in a logic row comes from a "logic_pass"
classified outcome. -/
theorem Evaluator.logicCell_eq_one {rc : String × Option String}
    (h : Evaluator.logicCell rc = 1) : rc.1 = "logic_pass" := by
  unfold Evaluator.logicCell at h
  split at h
  · next hbeq => exact eq_of_beq hbeq
  · cases h

/-- C7: whenever `Evaluator.evaluate` returns normally, every 1 entry of the
logic matrix has a 1 entry of the vocab matrix at the same (i, j): the logic
cell is 1 only for a "logic_pass" outcome, and every "logic_pass" outcome
also sets the vocab cell to 1. -/
theorem logic_matrix_le_vocab_matrix
    (consult : String → String → Bool × Option String)
    (extract_goal : String → String) (log2 : ℚ → ℚ)
    (solutions : List CandidateSolution) (test_cases : List TestCase) (r : EvalResult)
    (hr : Evaluator.evaluate consult extract_goal log2 solutions test_cases = .ok r)
    (i j : Nat) (lrow : List Nat)
    (hl : r.logic_matrix[i]? = some lrow) (h1 : lrow[j]? = some 1) :
    ∃ vrow, r.vocab_matrix[i]? = some vrow ∧ vrow[j]? = some 1 := by
  obtain rfl := Evaluator.evaluate_ok_eq consult extract_goal log2 solutions test_cases r hr
  rw [Evaluator.evaluateCore_logic_matrix, List.getElem?_map] at hl
  obtain ⟨row, hrow, rfl⟩ := Option.map_eq_some'.mp hl
  rw [List.getElem?_map] at h1
  obtain ⟨rc, hrc, hcell⟩ := Option.map_eq_some'.mp h1
  have hpass := Evaluator.logicCell_eq_one hcell
  refine ⟨row.map Evaluator.vocabCell, ?_, ?_⟩
  · rw [Evaluator.evaluateCore_vocab_matrix, List.getElem?_map, hrow]
    rfl
  · rw [List.getElem?_map, hrc]
    simp only [Option.map_some']
    unfold Evaluator.vocabCell
    rw [hpass]
    rfl

unseal Rat.mul Rat.inv Rat.add Rat.sub in
/-- Closed instance of the preceding theorem's hypotheses and conclusion at
the 1-program / 1-test all-pass evaluation, cell (0, 0). -/
theorem logic_matrix_le_vocab_matrix_witness :
    Evaluator.evaluate consultAllPass extractGoalId log2Zero
        [sampleSolution] [sampleTest] = .ok sampleEvalResult ∧
    sampleEvalResult.logic_matrix[0]? = some [1] ∧ ([1] : List Nat)[0]? = some 1 ∧
    ∃ vrow, sampleEvalResult.vocab_matrix[0]? = some vrow ∧ vrow[0]? = some 1 :=
  ⟨by decide, by decide, by decide,
    logic_matrix_le_vocab_matrix consultAllPass extractGoalId log2Zero
      [sampleSolution] [sampleTest] sampleEvalResult (by decide) 0 0 [1]
      (by decide) (by decide)⟩

/-- Helper: a row of the results grid has one entry per test case. -/
theorem Evaluator.resultsMatrix_row_length
    (consult : String → String → Bool × Option String)
    (extract_goal : String → String)
    (solutions : List CandidateSolution) (test_cases : List TestCase)
    (row : List (String × Option String))
    (hrow : row ∈ Evaluator.resultsMatrix consult extract_goal solutions test_cases) :
    row.length = test_cases.length := by
  obtain ⟨s, _, rfl⟩ := List.mem_map.mp hrow
  simp [Evaluator.resultsRow]

/-- Helper: a 0/1-valued row sums to at most its length. -/
theorem sum_le_length_of_cells_le_one (l : List Nat) (h : ∀ x ∈ l, x ≤ 1) :
    l.sum ≤ l.length := by
  have := List.sum_le_card_nsmul l 1 h
  simpa using this

/-- Helper: bounds for one fitness quotient `sum / (len or 1)`. -/
theorem fitness_quotient_bounds (row : List (String × Option String)) (n : Nat)
    (hlen : row.length = n) (f : String × Option String → Nat) (hf : ∀ rc, f rc ≤ 1) :
    0 ≤ ((row.map f).sum : ℚ) / (pyOr1 n : ℚ) ∧
    ((row.map f).sum : ℚ) / (pyOr1 n : ℚ) ≤ 1 ∧
    (n = 0 → ((row.map f).sum : ℚ) / (pyOr1 n : ℚ) = 0) := by
  have hsum : (row.map f).sum ≤ n := by
    calc (row.map f).sum ≤ (row.map f).length :=
          sum_le_length_of_cells_le_one _ (by
            intro x hx
            obtain ⟨rc, _, rfl⟩ := List.mem_map.mp hx
            exact hf rc)
      _ = n := by simpa using hlen
  rcases Nat.eq_zero_or_pos n with hn | hn
  · subst hn
    have hrow : row = [] := List.length_eq_zero.mp hlen
    subst hrow
    norm_num [pyOr1]
  · have hpy : pyOr1 n = n := by
      rw [pyOr1, if_neg (Nat.pos_iff_ne_zero.mp hn)]
    have hpos : (0 : ℚ) < (pyOr1 n : ℚ) := by
      rw [hpy]; exact_mod_cast hn
    refine ⟨div_nonneg (by positivity) (le_of_lt hpos), ?_, ?_⟩
    · rw [div_le_one hpos, hpy]
      exact_mod_cast hsum
    · intro h0
      exact absurd h0 (Nat.pos_iff_ne_zero.mp hn)

/-- C9: after every normally-returning evaluation pass, every solution's
logic and vocab fitness is a rational in [0, 1], and with an empty test
population both are exactly 0 (the denominator is floored to 1, so no
division by zero occurs). -/
theorem fitness_bounds
    (consult : String → String → Bool × Option String)
    (extract_goal : String → String) (log2 : ℚ → ℚ)
    (solutions : List CandidateSolution) (test_cases : List TestCase) (r : EvalResult)
    (hr : Evaluator.evaluate consult extract_goal log2 solutions test_cases = .ok r)
    (s : CandidateSolution) (hs : s ∈ r.solutions) :
    (∃ q, s.logic_fitness = some q ∧ 0 ≤ q ∧ q ≤ 1) ∧
    (∃ q, s.vocab_fitness = some q ∧ 0 ≤ q ∧ q ≤ 1) ∧
    (test_cases = [] → s.logic_fitness = some 0 ∧ s.vocab_fitness = some 0) := by
  obtain rfl := Evaluator.evaluate_ok_eq consult extract_goal log2 solutions test_cases r hr
  rw [Evaluator.evaluateCore_solutions] at hs
  obtain ⟨p, hp, rfl⟩ := List.mem_map.mp hs
  have hrow := (List.of_mem_zip hp).2
  have hlen := Evaluator.resultsMatrix_row_length consult extract_goal
    solutions test_cases p.2 hrow
  have hlb := fitness_quotient_bounds p.2 test_cases.length hlen
    Evaluator.logicCell (by
      intro rc; unfold Evaluator.logicCell; split <;> omega)
  have hvb := fitness_quotient_bounds p.2 test_cases.length hlen
    Evaluator.vocabCell (by
      intro rc; unfold Evaluator.vocabCell; split <;> omega)
  refine ⟨⟨_, rfl, hlb.1, hlb.2.1⟩, ⟨_, rfl, hvb.1, hvb.2.1⟩, ?_⟩
  intro hempty
  have h0 : test_cases.length = 0 := by simp [hempty]
  constructor
  · show some _ = some 0
    rw [hlb.2.2 h0]
  · show some _ = some 0
    rw [hvb.2.2 h0]

unseal Rat.mul Rat.inv Rat.add Rat.sub in
/-- Closed instance of the preceding theorem's hypotheses and conclusion at
the 1-program / 1-test all-pass evaluation. -/
theorem fitness_bounds_witness :
    Evaluator.evaluate consultAllPass extractGoalId log2Zero
        [sampleSolution] [sampleTest] = .ok sampleEvalResult ∧
    sampleSolutionEvaluated ∈ sampleEvalResult.solutions ∧
    ((∃ q, sampleSolutionEvaluated.logic_fitness = some q ∧ 0 ≤ q ∧ q ≤ 1) ∧
     (∃ q, sampleSolutionEvaluated.vocab_fitness = some q ∧ 0 ≤ q ∧ q ≤ 1) ∧
     ([sampleTest] = ([] : List TestCase) →
       sampleSolutionEvaluated.logic_fitness = some 0 ∧
       sampleSolutionEvaluated.vocab_fitness = some 0)) :=
  ⟨by decide, by decide,
    fitness_bounds consultAllPass extractGoalId log2Zero
      [sampleSolution] [sampleTest] sampleEvalResult (by decide)
      sampleSolutionEvaluated (by decide)⟩

/-- Helper: the Stage-1 loop body performs at most `fuel` evaluation passes. -/
theorem run_vocab_alignment_go_passes_le (O : Oracles) (thr : ℚ)
    (ra : Kind × Nat → Nat) (lf : Kind × Nat → Option Nat)
    (sm : SuiteManager) (cat : Kind) (it : Nat) : ∀ fuel : Nat,
    (run_vocab_alignment_go O thr ra lf sm cat it fuel).2 ≤ fuel := by
  intro fuel
  induction fuel generalizing ra lf sm cat it with
  | zero => simp [run_vocab_alignment_go]
  | succ n ih =>
    rw [run_vocab_alignment_go]
    split
    · simp
    · dsimp only
      split
      · simp
      · split
        · simp
        · split
          · simp
          · split
            · simp
            · split
              · simp
              · simpa using Nat.succ_le_succ (ih _ _ _ _ _)

/-- C8: `run_vocab_alignment` is a total function of its inputs and oracles
(the Python loop is a bounded `for it in range(1, max_iters + 1)` with no
inner iteration), and it performs at most `max_iters` evaluation passes
before returning — also on the paths that propagate an evaluator exception. -/
theorem run_vocab_alignment_pass_bound (O : Oracles) (GOOD_THRESHOLD : ℚ)
    (max_iters : Nat) (sm : SuiteManager) (cat : Kind) :
    (run_vocab_alignment O GOOD_THRESHOLD max_iters sm cat).2 ≤ max_iters :=
  run_vocab_alignment_go_passes_le O GOOD_THRESHOLD (fun _ => 0) (fun _ => none)
    sm cat 1 max_iters

/-- Helper: Python's first-minimum `min` (a left fold keeping the first
strict minimum) returns a member of the list. -/
theorem foldl_min_mem (c : Kind × Nat × ℚ) (cs : List (Kind × Nat × ℚ)) :
    cs.foldl (fun b x => if x.2.2 < b.2.2 then x else b) c ∈ c :: cs := by
  induction cs generalizing c with
  | nil => exact List.mem_singleton.mpr rfl
  | cons x xs ih =>
    rw [List.foldl_cons]
    rcases List.mem_cons.mp (ih (if x.2.2 < c.2.2 then x else c)) with h | h
    · rw [h]
      split
      · exact List.mem_cons_of_mem _ (List.mem_cons_self _ _)
      · exact List.mem_cons_self _ _
    · exact List.mem_cons_of_mem _ (List.mem_cons_of_mem _ h)

/-- Helper: members of the candidate list satisfy the eligibility bounds. -/
theorem eligible_candidates_mem (prog_rates test_rates : List ℚ) (iteration : Nat)
    (repair_attempts : Kind × Nat → Nat) (last_fixed_iter : Kind × Nat → Option Nat)
    (max_repair_tries cooldown_iters : Nat) (x : Kind × Nat × ℚ)
    (hx : x ∈ eligible_candidates prog_rates test_rates iteration repair_attempts
      last_fixed_iter max_repair_tries cooldown_iters) :
    repair_attempts (x.1, x.2.1) < max_repair_tries ∧
    ∀ t, last_fixed_iter (x.1, x.2.1) = some t →
      (cooldown_iters : Int) < (iteration : Int) - (t : Int) := by
  have helig : eligibleKey iteration repair_attempts last_fixed_iter
      max_repair_tries cooldown_iters x.1 x.2.1 = true := by
    unfold eligible_candidates at hx
    rcases List.mem_append.mp hx with h | h
    · exact (List.mem_filter.mp h).2
    · exact (List.mem_filter.mp h).2
  unfold eligibleKey at helig
  rw [Bool.and_eq_true] at helig
  refine ⟨of_decide_eq_true helig.1, ?_⟩
  intro t ht
  have h2 := helig.2
  rw [ht] at h2
  simp only [Bool.not_eq_true'] at h2
  have := decide_eq_false_iff_not.mp h2
  omega

/-- C5, amended: the normal, eligibility-filtered path of
`select_refactor_target` — taken whenever at least one candidate is
eligible — only ever returns a pair whose repair attempts are below
`max_repair_tries` and which is out of its cooldown window; in particular,
with `max_repair_tries = 2` it never picks a pair a third time and with
`cooldown_iters = 1` never a pair repaired on the previous iteration.  (The
fallback path can violate both bounds — see the counterexample.) -/
theorem select_refactor_target_normal_path_bounds
    (prog_rates test_rates : List ℚ) (iteration : Nat)
    (repair_attempts : Kind × Nat → Nat) (last_fixed_iter : Kind × Nat → Option Nat)
    (catastrophe : Kind) (pick : Nat → Nat) (max_repair_tries cooldown_iters : Nat)
    (hne : eligible_candidates prog_rates test_rates iteration repair_attempts
      last_fixed_iter max_repair_tries cooldown_iters ≠ []) :
    ∃ k i, select_refactor_target prog_rates test_rates iteration repair_attempts
        last_fixed_iter catastrophe pick max_repair_tries cooldown_iters
        = .ok ((k, i), catastrophe) ∧
      repair_attempts (k, i) < max_repair_tries ∧
      ∀ t, last_fixed_iter (k, i) = some t →
        (cooldown_iters : Int) < (iteration : Int) - (t : Int) := by
  rcases hc : eligible_candidates prog_rates test_rates iteration repair_attempts
      last_fixed_iter max_repair_tries cooldown_iters with _ | ⟨c, cs⟩
  · exact absurd hc hne
  · have hmem : cs.foldl (fun b x => if x.2.2 < b.2.2 then x else b) c
        ∈ eligible_candidates prog_rates test_rates iteration repair_attempts
          last_fixed_iter max_repair_tries cooldown_iters := by
      rw [hc]; exact foldl_min_mem c cs
    have hbounds := eligible_candidates_mem prog_rates test_rates iteration
      repair_attempts last_fixed_iter max_repair_tries cooldown_iters _ hmem
    refine ⟨_, _, ?_, hbounds.1, hbounds.2⟩
    unfold select_refactor_target
    rw [hc]

/-- Closed instance of the preceding theorem's hypothesis and conclusion:
one eligible program with fresh repair state. -/
theorem select_refactor_target_normal_path_bounds_witness :
    eligible_candidates [0] [] 1 (fun _ => 0) (fun _ => none) 2 1 ≠ [] ∧
    ∃ k i, select_refactor_target [0] [] 1 (fun _ => 0) (fun _ => none)
        Kind.program (fun _ => 0) 2 1 = .ok ((k, i), Kind.program) ∧
      (fun (_ : Kind × Nat) => 0) (k, i) < 2 ∧
      ∀ t, (fun (_ : Kind × Nat) => (none : Option Nat)) (k, i) = some t →
        ((1 : Nat) : Int) < ((1 : Nat) : Int) - (t : Int) :=
  ⟨by decide,
    select_refactor_target_normal_path_bounds [0] [] 1 (fun _ => 0) (fun _ => none)
      Kind.program (fun _ => 0) 2 1 (by decide)⟩

/-- Helper: dominance is irreflexive. -/
theorem dominates_irrefl (metrics : List (TestInfo → ℚ)) (a : TestInfo) :
    dominates metrics a a = false := by
  unfold dominates
  have h : (metrics.any fun m => decide (m a < m a)) = false := by
    rw [List.any_eq_false]
    intro m _
    simp
  rw [h, Bool.and_false]

/-- Helper: dominance is transitive. -/
theorem dominates_trans {metrics : List (TestInfo → ℚ)} {a b c : TestInfo}
    (h1 : dominates metrics a b = true) (h2 : dominates metrics b c = true) :
    dominates metrics a c = true := by
  unfold dominates at h1 h2 ⊢
  rw [Bool.and_eq_true] at h1 h2 ⊢
  obtain ⟨h1a, _⟩ := h1
  obtain ⟨h2a, h2s⟩ := h2
  rw [List.all_eq_true] at h1a h2a
  constructor
  · rw [List.all_eq_true]
    intro m hm
    exact decide_eq_true
      (le_trans (of_decide_eq_true (h2a m hm)) (of_decide_eq_true (h1a m hm)))
  · rw [List.any_eq_true] at h2s ⊢
    obtain ⟨m, hm, hlt⟩ := h2s
    exact ⟨m, hm, decide_eq_true
      (lt_of_lt_of_le (of_decide_eq_true hlt) (of_decide_eq_true (h1a m hm)))⟩

/-- Helper: every nonempty list has a member dominated by no member (the
dominance order is irreflexive and transitive, so maximal elements exist). -/
theorem exists_undominated (metrics : List (TestInfo → ℚ)) :
    ∀ l : List TestInfo, l ≠ [] →
      ∃ p ∈ l, ∀ q ∈ l, dominates metrics q p = false := by
  intro l
  induction l with
  | nil => intro h; exact absurd rfl h
  | cons a t ih =>
    intro _
    by_cases ht : t = []
    · subst ht
      refine ⟨a, List.mem_singleton.mpr rfl, ?_⟩
      intro q hq
      rw [List.mem_singleton.mp hq]
      exact dominates_irrefl metrics a
    · obtain ⟨p, hp, hnd⟩ := ih ht
      by_cases hap : dominates metrics a p = true
      · refine ⟨a, List.mem_cons_self a t, ?_⟩
        intro q hq
        rcases List.mem_cons.mp hq with rfl | hq'
        · exact dominates_irrefl metrics q
        · by_contra hqa
          have hqa' : dominates metrics q a = true := by
            cases hdom : dominates metrics q a
            · exact absurd hdom hqa
            · rfl
          have : dominates metrics q p = true := dominates_trans hqa' hap
          rw [hnd q hq'] at this
          cases this
      · refine ⟨p, List.mem_cons_of_mem a hp, ?_⟩
        intro q hq
        rcases List.mem_cons.mp hq with rfl | hq'
        · exact Bool.eq_false_iff.mpr hap
        · exact hnd q hq'

/-- Helper: the front of a nonempty remainder is nonempty. -/
theorem paretoFront_ne_nil (metrics : List (TestInfo → ℚ)) (l : List TestInfo)
    (h : l ≠ []) : paretoFront metrics l ≠ [] := by
  obtain ⟨p, hp, hnd⟩ := exists_undominated metrics l h
  have hmem : p ∈ paretoFront metrics l := by
    rw [paretoFront, List.mem_filter]
    refine ⟨hp, ?_⟩
    rw [Bool.not_eq_true', List.any_eq_false]
    intro q hq
    rw [hnd q hq, Bool.and_false]
    exact Bool.false_ne_true
  intro hnil
  rw [hnil] at hmem
  cases hmem

/-- Helper: the front is a subset of the remainder it is computed from. -/
theorem paretoFront_subset (metrics : List (TestInfo → ℚ)) (l : List TestInfo) :
    ∀ x ∈ paretoFront metrics l, x ∈ l := by
  intro x hx
  exact (List.mem_filter.mp hx).1

/-- Helper: one unfolding step of `buildFrontsGo` on a nonempty remainder. -/
theorem buildFrontsGo_cons (metrics : List (TestInfo → ℚ)) (fuel : Nat)
    (a : TestInfo) (t : List TestInfo) :
    buildFrontsGo metrics (fuel + 1) (a :: t)
      = paretoFront metrics (a :: t)
        :: buildFrontsGo metrics fuel
            ((a :: t).filter fun p => !(paretoFront metrics (a :: t)).contains p) := rfl

/-- Helper: enough fuel makes `buildFrontsGo` insensitive to more fuel — the
Python `while remaining:` loop removes a nonempty front per round, so
`pop.length` rounds always suffice and the bound in `build_pareto_front`
never truncates. -/
theorem buildFrontsGo_fuel_stable (metrics : List (TestInfo → ℚ)) :
    ∀ (fuel : Nat) (l : List TestInfo), l.length ≤ fuel →
      buildFrontsGo metrics (fuel + 1) l = buildFrontsGo metrics fuel l := by
  intro fuel
  induction fuel with
  | zero =>
    intro l hl
    have : l = [] := List.length_eq_zero.mp (Nat.le_zero.mp hl)
    subst this
    rfl
  | succ n ih =>
    intro l hl
    cases l with
    | nil => rfl
    | cons a t =>
      have hfront := paretoFront_ne_nil metrics (a :: t) (by simp)
      rw [buildFrontsGo_cons, buildFrontsGo_cons]
      congr 1
      apply ih
      obtain ⟨x, hx⟩ := List.exists_mem_of_ne_nil _ hfront
      have hlt : ((a :: t).filter fun p =>
          !(paretoFront metrics (a :: t)).contains p).length < (a :: t).length := by
        rw [List.length_filter_lt_length_iff_exists]
        refine ⟨x, paretoFront_subset metrics (a :: t) x hx, ?_⟩
        simp [hx]
      have hl' : (a :: t).length = t.length + 1 := by simp
      omega

/-- Helper: every front produced by `buildFrontsGo` is a subset of the list
it started from. -/
theorem buildFrontsGo_subset (metrics : List (TestInfo → ℚ)) :
    ∀ (fuel : Nat) (l : List TestInfo) (f : List TestInfo),
      f ∈ buildFrontsGo metrics fuel l → ∀ x ∈ f, x ∈ l := by
  intro fuel
  induction fuel with
  | zero =>
    intro l f hf
    simp [buildFrontsGo] at hf
  | succ n ih =>
    intro l f hf x hx
    cases l with
    | nil => simp [buildFrontsGo] at hf
    | cons a t =>
      rw [buildFrontsGo_cons] at hf
      rcases List.mem_cons.mp hf with rfl | hf'
      · exact paretoFront_subset metrics (a :: t) x hx
      · have := ih _ _ hf' x hx
        exact (List.mem_filter.mp this).1

/-- Helper: the selection loop on an empty front list returns the selection. -/
theorem paretoSelLoop_nil (sample : List TestInfo → Nat → List TestInfo)
    (mode : SelMode) (cap : Nat) (selected : List TestInfo) :
    paretoSelLoop sample mode cap selected [] = selected := rfl

/-- Helper: one unfolding step of the selection loop. -/
theorem paretoSelLoop_cons (sample : List TestInfo → Nat → List TestInfo)
    (mode : SelMode) (cap : Nat) (selected f : List TestInfo)
    (rest : List (List TestInfo)) :
    paretoSelLoop sample mode cap selected (f :: rest)
      = if cap ≤ selected.length then selected
        else if selected.length + f.length ≤ cap then
          paretoSelLoop sample mode cap (selected ++ f) rest
        else
          match mode with
          | .strict =>
            paretoSelLoop sample mode cap
              (selected ++ (f.mergeSort fun a b => decide (b.fitness ≤ a.fitness)).take
                (cap - selected.length)) rest
          | .auto =>
            paretoSelLoop sample mode cap
              (selected ++ sample f (cap - selected.length)) rest := rfl

/-- Helper: the selection loop in auto mode never exceeds
`max cap selected.length` elements, given that sampling returns at most the
requested count. -/
theorem paretoSelLoop_length_le (sample : List TestInfo → Nat → List TestInfo)
    (cap : Nat) (hs : ∀ f k, k ≤ f.length → (sample f k).length ≤ k) :
    ∀ (fronts : List (List TestInfo)) (selected : List TestInfo),
      (paretoSelLoop sample .auto cap selected fronts).length
        ≤ max cap selected.length := by
  intro fronts
  induction fronts with
  | nil =>
    intro s
    rw [paretoSelLoop_nil]
    exact Nat.le_max_right cap s.length
  | cons f rest ih =>
    intro s
    rw [paretoSelLoop_cons]
    split
    · exact Nat.le_max_right cap s.length
    · next hcap =>
      split
      · next hfit =>
        have := ih (s ++ f)
        rw [List.length_append] at this
        have hmax : max cap (s.length + f.length) = cap := Nat.max_eq_left hfit
        calc (paretoSelLoop sample .auto cap (s ++ f) rest).length
            ≤ max cap (s.length + f.length) := this
          _ = cap := hmax
          _ ≤ max cap s.length := Nat.le_max_left cap s.length
      · next hover =>
        have hk : cap - s.length ≤ f.length := by omega
        have hlen := hs f (cap - s.length) hk
        have := ih (s ++ sample f (cap - s.length))
        rw [List.length_append] at this
        have hle : s.length + (sample f (cap - s.length)).length ≤ cap := by omega
        have hmax : max cap (s.length + (sample f (cap - s.length)).length) = cap :=
          Nat.max_eq_left hle
        calc (paretoSelLoop sample .auto cap
              (s ++ sample f (cap - s.length)) rest).length
            ≤ max cap (s.length + (sample f (cap - s.length)).length) := this
          _ = cap := hmax
          _ ≤ max cap s.length := Nat.le_max_left cap s.length

/-- Helper: the selection loop keeps everything already selected. -/
theorem paretoSelLoop_keeps_selected (sample : List TestInfo → Nat → List TestInfo)
    (mode : SelMode) (cap : Nat) :
    ∀ (fronts : List (List TestInfo)) (selected : List TestInfo),
      ∀ x ∈ selected, x ∈ paretoSelLoop sample mode cap selected fronts := by
  intro fronts
  induction fronts with
  | nil =>
    intro s x hx
    rw [paretoSelLoop_nil]
    exact hx
  | cons f rest ih =>
    intro s x hx
    rw [paretoSelLoop_cons]
    split
    · exact hx
    · split
      · exact ih (s ++ f) x (List.mem_append_left f hx)
      · cases mode with
        | strict =>
          exact ih _ x (List.mem_append_left _ hx)
        | auto =>
          exact ih _ x (List.mem_append_left _ hx)

/-- Helper: in auto mode everything the selection loop returns comes from the
initial selection or from one of the fronts, given that sampling samples from
its front. -/
theorem paretoSelLoop_subset (sample : List TestInfo → Nat → List TestInfo)
    (cap : Nat) (hs : ∀ f k, k ≤ f.length → ∀ x ∈ sample f k, x ∈ f) :
    ∀ (fronts : List (List TestInfo)) (selected : List TestInfo),
      ∀ x ∈ paretoSelLoop sample .auto cap selected fronts,
        x ∈ selected ∨ ∃ f ∈ fronts, x ∈ f := by
  intro fronts
  induction fronts with
  | nil =>
    intro s x hx
    rw [paretoSelLoop_nil] at hx
    exact Or.inl hx
  | cons f rest ih =>
    intro s x hx
    rw [paretoSelLoop_cons] at hx
    split at hx
    · exact Or.inl hx
    · split at hx
      · rcases ih (s ++ f) x hx with h | ⟨f', hf', hxf⟩
        · rcases List.mem_append.mp h with h' | h'
          · exact Or.inl h'
          · exact Or.inr ⟨f, List.mem_cons_self f rest, h'⟩
        · exact Or.inr ⟨f', List.mem_cons_of_mem f hf', hxf⟩
      · next hcap hover =>
        rcases ih (s ++ sample f (cap - s.length)) x hx with h | ⟨f', hf', hxf⟩
        · rcases List.mem_append.mp h with h' | h'
          · exact Or.inl h'
          · have hk : cap - s.length ≤ f.length := by omega
            exact Or.inr ⟨f, List.mem_cons_self f rest, hs f (cap - s.length) hk x h'⟩
        · exact Or.inr ⟨f', List.mem_cons_of_mem f hf', hxf⟩

/-- C4, amended: for every nonempty test population and any cap,
`pareto_selection` (default auto mode, no filter) returns normally with a
subset of the population that contains all of front 0 and has at most
`max(cap, |front 0|)` members — hence at most `cap` whenever
`cap ≥ |front 0|`; the original claim's unconditional `≤ cap` fails when
front 0 overflows the cap, and the empty population raises IndexError
(see the counterexample). -/
theorem pareto_selection_cap_amended (sample : List TestInfo → Nat → List TestInfo)
    (pop : List TestInfo) (cap : Nat) (metrics : List (TestInfo → ℚ))
    (hs : ∀ f k, k ≤ f.length →
      (sample f k).length ≤ k ∧ ∀ x ∈ sample f k, x ∈ f)
    (hpop : pop ≠ []) :
    ∃ sel, pareto_selection sample pop cap metrics .auto false = .ok sel ∧
      sel.length ≤ max cap (paretoFront metrics pop).length ∧
      (∀ x ∈ paretoFront metrics pop, x ∈ sel) ∧
      (∀ x ∈ sel, x ∈ pop) := by
  cases pop with
  | nil => exact absurd rfl hpop
  | cons a t =>
    have hfronts : build_pareto_front (a :: t) metrics
        = paretoFront metrics (a :: t)
          :: buildFrontsGo metrics t.length
              ((a :: t).filter fun p => !(paretoFront metrics (a :: t)).contains p) := rfl
    refine ⟨paretoSelLoop sample .auto cap (paretoFront metrics (a :: t))
        (buildFrontsGo metrics t.length
          ((a :: t).filter fun p => !(paretoFront metrics (a :: t)).contains p)),
      ?_, ?_, ?_, ?_⟩
    · rw [pareto_selection, hfronts]
      rfl
    · exact paretoSelLoop_length_le sample cap (fun f k hk => (hs f k hk).1) _ _
    · exact fun x hx => paretoSelLoop_keeps_selected sample .auto cap _ _ x hx
    · intro x hx
      rcases paretoSelLoop_subset sample cap (fun f k hk => (hs f k hk).2) _ _ x hx
        with h | ⟨f', hf', hxf⟩
      · exact paretoFront_subset metrics (a :: t) x h
      · have := buildFrontsGo_subset metrics t.length _ f' hf' x hxf
        exact (List.mem_filter.mp this).1

/-- Helper: `takeSample` satisfies the `random.sample` contract. -/
theorem takeSample_spec : ∀ (f : List TestInfo) (k : Nat), k ≤ f.length →
    (takeSample f k).length ≤ k ∧ ∀ x ∈ takeSample f k, x ∈ f := by
  intro f k _
  constructor
  · rw [takeSample]
    simp [List.length_take]
  · intro x hx
    exact List.take_subset k f hx

/-- Closed instance of the amended C4 theorem's hypotheses and conclusion at
a one-element population with cap 0. -/
theorem pareto_selection_cap_amended_witness :
    (∀ (f : List TestInfo) (k : Nat), k ≤ f.length →
      (takeSample f k).length ≤ k ∧ ∀ x ∈ takeSample f k, x ∈ f) ∧
    ([tiA] : List TestInfo) ≠ [] ∧
    (∃ sel, pareto_selection takeSample [tiA] 0 confDiscMetrics .auto false = .ok sel ∧
      sel.length ≤ max 0 (paretoFront confDiscMetrics [tiA]).length ∧
      (∀ x ∈ paretoFront confDiscMetrics [tiA], x ∈ sel) ∧
      (∀ x ∈ sel, x ∈ [tiA])) :=
  ⟨takeSample_spec, by decide,
    pareto_selection_cap_amended takeSample [tiA] 0 confDiscMetrics
      takeSample_spec (by decide)⟩

end ThesisRepo
